import Mathlib

/-!
Verification of the echo_id identity-alias registry (Solana/Anchor program).

The embedding follows the repository's sources. Present sources:
`src/programs/echo_id_contract/src/lib.rs` (entrypoints),
`src/programs/echo_id_contract/src/error.rs` (`EchoIDError`),
`src/programs/echo_id_contract/src/instructions/register_alias.rs`
(the `register_alias` accounts struct and handler).

The modules `state.rs`, `merkle.rs`, `zkp.rs` and the remaining instruction
handlers (`add_chain_mapping`, `verify_alias_ownership`, ...) are declared by
`lib.rs` but their files are not part of the available sources; the
definitions below that embed them are modelled from the specification and
carry a doc comment starting with `Modelled from the spec:`.

Machine integers: `chain_id` and byte values are modelled as `Nat`,
timestamps and reputation (`i64`) as `Int`; none of the verified claims
involve arithmetic that could overflow (the only arithmetic is incrementing
`chain_mapping_count`, a `u32` bounded by `MAX_CHAIN_MAPPINGS`).
-/

set_option maxRecDepth 100000

/-- Byte strings (`Vec<u8>` / `[u8; 32]`): a list of byte values. -/
abbrev Bytes := List Nat

/-- A Solana account address (`Pubkey`), modelled as an abstract identifier. -/
abbrev Pubkey := Nat

/-- Modelled from the spec: `state.rs` is not among the available sources.
A chain mapping per spec §3: `{ chain_id: integer, address: byte-string,
metadata?: byte-string }`. -/
structure ChainMapping where
  chain_id : Nat
  address : Bytes
  metadata : Option Bytes
deriving DecidableEq

/-- Modelled from the spec: `merkle.rs` is not among the available sources.
A 32-byte hash value. The spec's collision-resistant hash is modelled
symbolically: `leaf` is the (injective) leaf hash of a chain mapping's
canonical encoding, `node` the (injective) hash of two child hashes, and
`zero` the all-zero value returned for an empty leaf list (never produced by
the program's flows, which always supply at least one leaf). -/
inductive Hash32 where
  | leaf : ChainMapping → Hash32
  | node : Hash32 → Hash32 → Hash32
  | zero : Hash32
deriving DecidableEq

/-- Modelled from the spec: `merkle.rs` is not among the available sources.
`hash_chain_mapping` (spec §4.1 `hash_leaf`): the deterministic leaf hash of
a chain mapping's canonical encoding. -/
def hash_chain_mapping (m : ChainMapping) : Hash32 := Hash32.leaf m

/-- Modelled from the spec: `merkle.rs` is not among the available sources.
One level of the bottom-up Merkle fold: hash adjacent pairs; per spec §4.1's
odd-count policy, a lone last node is duplicated (hashed with itself). -/
def hash_pairs : List Hash32 → List Hash32
  | [] => []
  | [x] => [Hash32.node x x]
  | x :: y :: rest => Hash32.node x y :: hash_pairs rest

/-- Fuel-indexed bottom-up fold of Merkle levels. The fuel only bounds the
number of levels so the recursion is structural; since each level at least
halves a list of two or more nodes, fuel `l.length` always suffices and the
fuel-exhausted arm is unreachable from `compute_merkle_root`. -/
def merkle_fold : Nat → List Hash32 → Hash32
  | _, [] => Hash32.zero
  | _, [x] => x
  | 0, x :: _ :: _ => x
  | fuel + 1, x :: y :: rest => merkle_fold fuel (hash_pairs (x :: y :: rest))

/-- Modelled from the spec: `merkle.rs` is not among the available sources.
`compute_merkle_root` (spec §4.1 `compute_root`): builds a binary Merkle tree
bottom-up over the ordered leaf sequence, duplicating the last node at odd
levels; for a single leaf the root is the leaf itself. -/
def compute_merkle_root (leaves : List Hash32) : Hash32 :=
  merkle_fold leaves.length leaves

/-- The error enum of `error.rs` (`EchoIDError`). The last three variants do
not appear in `error.rs` but are referenced by `register_alias.rs`
(`ErrorCode::InvalidUsername` in the handler, `ErrorCode::Unauthorized` and
`ErrorCode::ProductOwnerNotActive` in the accounts constraints), so they are
included as the handler uses them. -/
inductive EchoIDError where
  | InvalidInstruction
  | InvalidSigner
  | InvalidDerivedAccount
  | AliasAlreadyExists
  | AliasDoesNotExist
  | InvalidOwner
  | AliasTooLong
  | InsufficientFunds
  | ChainIDAlreadyExists
  | MaxChainMappingsReached
  | InvalidReputationChange
  | ReputationAccountNotInitialized
  | CrossChainAccountNotInitialized
  | InvalidUsername
  | Unauthorized
  | ProductOwnerNotActive
deriving DecidableEq

/-- Modelled from the spec: `state.rs` is not among the available sources.
The `AliasAccount` record, with the fields assigned by the
`register_alias.rs` handler and listed in spec §3 (matching the handler's
space formula `8 + 32 + 4 + username.len() + 4 + suffix.len() + 32 + 4 + 8 +
8 + 32`). Rust strings are modelled as lists of characters. -/
structure AliasAccount where
  owner : Pubkey
  username : List Char
  product_suffix : List Char
  public_key : Bytes
  chain_mappings_root : Hash32
  chain_mapping_count : Nat
  reputation : Int
  reputation_updated_at : Int
deriving DecidableEq

/-- `RegisterAliasParams` from `register_alias.rs`. -/
structure RegisterAliasParams where
  username : List Char
  public_key : Bytes
  initial_chain_mapping : ChainMapping
deriving DecidableEq

/-- The `register_alias` handler (`register_alias.rs`, `handler`): rejects a
username containing the character `@` with `InvalidUsername`, otherwise
creates the alias record with `owner` = the `product_owner` signer's key,
`product_suffix` copied from the product-owner account, the caller-supplied
`public_key`, root = Merkle root of the single initial leaf, count = 1,
reputation = 10 and the current clock timestamp (`now`). -/
def register_alias_handler (product_owner : Pubkey) (product_owner_suffix : List Char)
    (now : Int) (params : RegisterAliasParams) : Except EchoIDError AliasAccount :=
  if params.username.contains '@' then
    Except.error EchoIDError.InvalidUsername
  else
    Except.ok
      { owner := product_owner
        username := params.username
        product_suffix := product_owner_suffix
        public_key := params.public_key
        chain_mappings_root :=
          compute_merkle_root [hash_chain_mapping params.initial_chain_mapping]
        chain_mapping_count := 1
        reputation := 10
        reputation_updated_at := now }

/-- Modelled from the spec: `state.rs` is not among the available sources and
the spec does not fix the numeric value of `MAX_CHAIN_MAPPINGS`; it is set to
10 here. No theorem below depends on the particular value. -/
def MAX_CHAIN_MAPPINGS : Nat := 10

/-- Modelled from the spec: `instructions/add_chain_mapping.rs` is not among
the available sources. Spec §4.3: `add_chain_mapping(alias, witness_mappings,
new_mapping)` recomputes the root from the witness mappings and checks
equality with the stored root (`InvalidDerivedAccount` otherwise), checks the
new mapping's `chain_id` is not already present among the witness mappings
(`ChainIDAlreadyExists`), checks `count < MAX_CHAIN_MAPPINGS`
(`MaxChainMappingsReached`), then stores the root recomputed over
witness + new together with `count + 1`. -/
def add_chain_mapping (acct : AliasAccount) (witness_mappings : List ChainMapping)
    (new_mapping : ChainMapping) : Except EchoIDError AliasAccount :=
  let leaves := witness_mappings.map hash_chain_mapping
  if compute_merkle_root leaves = acct.chain_mappings_root then
    if witness_mappings.any (fun m => m.chain_id == new_mapping.chain_id) then
      Except.error EchoIDError.ChainIDAlreadyExists
    else if acct.chain_mapping_count < MAX_CHAIN_MAPPINGS then
      Except.ok
        { acct with
          chain_mappings_root :=
            compute_merkle_root (leaves ++ [hash_chain_mapping new_mapping])
          chain_mapping_count := acct.chain_mapping_count + 1 }
    else
      Except.error EchoIDError.MaxChainMappingsReached
  else
    Except.error EchoIDError.InvalidDerivedAccount

/-- The alias state after an `add_chain_mapping` invocation: the updated
record on success, the untouched input record on failure (the host commits
all mutations or none; an aborted instruction leaves the account unchanged). -/
def add_result (acct : AliasAccount) (witness_mappings : List ChainMapping)
    (new_mapping : ChainMapping) : AliasAccount :=
  match add_chain_mapping acct witness_mappings new_mapping with
  | Except.ok r => r
  | Except.error _ => acct

/-- Modelled from the spec: `zkp.rs` is not among the available sources.
`SerializableProof` (spec §3 `OwnershipProof`): an opaque serialized proof
structure. -/
structure SerializableProof where
  proof_data : Bytes
deriving DecidableEq

/-- Modelled from the spec: `zkp.rs` is not among the available sources.
Deserialization of instruction bytes into a structured proof (spec §4.2:
fails on malformed bytes). Modelled as a Borsh-style length-prefixed byte
vector: well-formed iff the declared length matches the payload. -/
def deserialize_proof : List Nat → Option SerializableProof
  | [] => none
  | n :: rest => if rest.length = n then some ⟨rest⟩ else none

/-- Modelled from the spec: `instructions/verify_alias_ownership.rs` and
`zkp.rs` are not among the available sources. The `verify_alias_ownership`
instruction as dispatched by `lib.rs` (which returns `Result<()>`, not a
boolean): malformed proof bytes fail deserialization with an
`InvalidInstruction`-class error before the handler runs; the handler runs
the zero-knowledge verification algorithm — kept abstract as the `verify`
argument, since no cryptographic source is available — and surfaces a failed
verification as an `InvalidSigner`-class error (spec §4.2: "failure surfaces
as a ledger-level error (`InvalidSigner`-class)"). -/
def verify_ownership_ix (verify : SerializableProof → Bytes → Bool)
    (instruction_bytes : List Nat) (public_key : Bytes) : Except EchoIDError Unit :=
  match deserialize_proof instruction_bytes with
  | none => Except.error EchoIDError.InvalidInstruction
  | some p =>
      if verify p public_key then Except.ok () else Except.error EchoIDError.InvalidSigner

/-- The spec's end-to-end mapping `{chain_id = 1, address = "0xAA"}`. -/
def cmA : ChainMapping := ⟨1, [170], none⟩

/-- The spec's end-to-end mapping `{chain_id = 2, address = "0xBB"}`. -/
def cmB : ChainMapping := ⟨2, [187], none⟩

/-- A third sample mapping, chain id 3. -/
def cmC : ChainMapping := ⟨3, [204], none⟩

/-- A fourth sample mapping, chain id 4. -/
def cmD : ChainMapping := ⟨4, [221], none⟩

/-- The spec's duplicate-id mapping `{chain_id = 1, address = "0xCC"}`. -/
def cmDup : ChainMapping := ⟨1, [204], none⟩

/-- A sample alias record holding exactly the mapping `cmA`. -/
def aliasOne : AliasAccount :=
  { owner := 0
    username := ['a']
    product_suffix := ['s']
    public_key := List.replicate 32 0
    chain_mappings_root := hash_chain_mapping cmA
    chain_mapping_count := 1
    reputation := 10
    reputation_updated_at := 0 }

/-- A sample alias record at full mapping capacity. -/
def aliasMax : AliasAccount :=
  { aliasOne with chain_mapping_count := MAX_CHAIN_MAPPINGS }

/-- The spec's end-to-end registration parameters for alias `alice`. -/
def paramsAlice : RegisterAliasParams :=
  ⟨['a', 'l', 'i', 'c', 'e'], List.replicate 32 1, cmA⟩

/-- The record `register_alias` creates for `paramsAlice` under signer 7,
suffix `s`, timestamp 42. -/
def aliasAlice : AliasAccount :=
  { owner := 7
    username := ['a', 'l', 'i', 'c', 'e']
    product_suffix := ['s']
    public_key := List.replicate 32 1
    chain_mappings_root := hash_chain_mapping cmA
    chain_mapping_count := 1
    reputation := 10
    reputation_updated_at := 42 }

/-- A 1000-character username, far beyond any plausible length cap. -/
def longName : List Char := List.replicate 1000 'a'

/-- C1: every successful `register_alias` call with username `u`, public key
`k` and initial chain mapping `m` creates an `AliasRecord` with
`chain_mapping_count = 1`, `reputation = 10`, `public_key = k`,
`chain_mappings_root` equal to the Merkle root of the single leaf
`hash_leaf(m)`, and `reputation_updated_at` set to the current timestamp. -/
theorem register_alias_creates_record (pok : Pubkey) (sfx : List Char) (now : Int)
    (params : RegisterAliasParams) (r : AliasAccount)
    (h : register_alias_handler pok sfx now params = Except.ok r) :
    r.chain_mapping_count = 1 ∧ r.reputation = 10 ∧
    r.public_key = params.public_key ∧
    r.chain_mappings_root =
      compute_merkle_root [hash_chain_mapping params.initial_chain_mapping] ∧
    r.reputation_updated_at = now := by
  by_cases hc : params.username.contains '@' <;> simp at hc <;>
    simp [register_alias_handler, hc] at h
  subst h
  exact ⟨rfl, rfl, rfl, rfl, rfl⟩

/-- Witness for C1: registering `alice` with mapping `{1, "0xAA"}` under
signer 7, suffix `s`, timestamp 42 yields exactly the record `aliasAlice`. -/
theorem register_alias_creates_record_witness :
    aliasAlice.chain_mapping_count = 1 ∧ aliasAlice.reputation = 10 ∧
    aliasAlice.public_key = paramsAlice.public_key ∧
    aliasAlice.chain_mappings_root =
      compute_merkle_root [hash_chain_mapping paramsAlice.initial_chain_mapping] ∧
    aliasAlice.reputation_updated_at = 42 :=
  register_alias_creates_record 7 ['s'] 42 paramsAlice aliasAlice rfl

/-- C5: for every chain mapping `m`, `compute_root [hash_leaf m] = hash_leaf
m` (degenerate single-node tree), so the root stored at registration equals
the initial mapping's leaf hash. -/
theorem compute_root_single_leaf :
    (∀ m : ChainMapping,
      compute_merkle_root [hash_chain_mapping m] = hash_chain_mapping m) ∧
    ∀ (pok : Pubkey) (sfx : List Char) (now : Int) (params : RegisterAliasParams)
      (r : AliasAccount), register_alias_handler pok sfx now params = Except.ok r →
      r.chain_mappings_root = hash_chain_mapping params.initial_chain_mapping := by
  refine ⟨fun m => rfl, ?_⟩
  intro pok sfx now params r h
  by_cases hc : params.username.contains '@' <;> simp at hc <;>
    simp [register_alias_handler, hc] at h
  subst h
  rfl

/-- Witness for C5: the root of the record registered for `alice` is the leaf
hash of its initial mapping `{1, "0xAA"}`. -/
theorem compute_root_single_leaf_witness :
    aliasAlice.chain_mappings_root =
      hash_chain_mapping paramsAlice.initial_chain_mapping :=
  compute_root_single_leaf.2 7 ['s'] 42 paramsAlice aliasAlice rfl

/-- C6: every `register_alias` call whose username contains the character `@`
fails with the `InvalidUsername`-class error and creates no record. -/
theorem register_alias_rejects_at_sign (pok : Pubkey) (sfx : List Char) (now : Int)
    (params : RegisterAliasParams) (h : params.username.contains '@' = true) :
    register_alias_handler pok sfx now params =
      Except.error EchoIDError.InvalidUsername := by
  simp at h
  simp [register_alias_handler, h]

/-- Witness for C6: registering the username `a@b` fails with
`InvalidUsername`. -/
theorem register_alias_rejects_at_sign_witness :
    register_alias_handler 0 [] 0 ⟨['a', '@', 'b'], [], cmA⟩ =
      Except.error EchoIDError.InvalidUsername :=
  register_alias_rejects_at_sign 0 [] 0 ⟨['a', '@', 'b'], [], cmA⟩ (by decide)

/-- Counterexample to C7: `register_alias` performs no username-length check
— a 1000-character username (exceeding any plausible `MAX_USERNAME_LEN`; no
such constant or `AliasTooLong` check appears anywhere in the handler, which
sizes the account from the actual `username.len()`) registers successfully
instead of failing with `AliasTooLong`. -/
theorem register_alias_no_length_check_cex :
    longName.length = 1000 ∧
    register_alias_handler 0 ['s'] 0 ⟨longName, List.replicate 32 0, cmA⟩ =
      Except.ok
        { owner := 0
          username := longName
          product_suffix := ['s']
          public_key := List.replicate 32 0
          chain_mappings_root := hash_chain_mapping cmA
          chain_mapping_count := 1
          reputation := 10
          reputation_updated_at := 0 } :=
  ⟨by simp [longName], rfl⟩

/-- C7 as amended: `register_alias` validates only that the username contains
no `@`; it performs no length validation (the account's space is computed
from the username's actual length), so an `@`-free username of any length is
accepted and the record is created. -/
theorem register_alias_no_length_check (pok : Pubkey) (sfx : List Char) (now : Int)
    (params : RegisterAliasParams) (h : params.username.contains '@' = false) :
    register_alias_handler pok sfx now params =
      Except.ok
        { owner := pok
          username := params.username
          product_suffix := sfx
          public_key := params.public_key
          chain_mappings_root :=
            compute_merkle_root [hash_chain_mapping params.initial_chain_mapping]
          chain_mapping_count := 1
          reputation := 10
          reputation_updated_at := now } := by
  simp at h
  simp [register_alias_handler, h]

/-- Witness for amended C7: the 1000-character username registers. -/
theorem register_alias_no_length_check_witness :
    register_alias_handler 3 ['s'] 5 ⟨longName, List.replicate 32 2, cmB⟩ =
      Except.ok
        { owner := 3
          username := longName
          product_suffix := ['s']
          public_key := List.replicate 32 2
          chain_mappings_root := compute_merkle_root [hash_chain_mapping cmB]
          chain_mapping_count := 1
          reputation := 10
          reputation_updated_at := 5 } :=
  register_alias_no_length_check 3 ['s'] 5 ⟨longName, List.replicate 32 2, cmB⟩
    (by decide)

/-- C10: every successful `register_alias` call sets the created record's
`owner` to the `product_owner` signer's public key (not anything derived from
the caller-supplied `public_key` parameter) and copies `product_suffix` from
the product-owner account's registered suffix (not from the caller). -/
theorem register_alias_owner_fields (pok : Pubkey) (sfx : List Char) (now : Int)
    (params : RegisterAliasParams) (r : AliasAccount)
    (h : register_alias_handler pok sfx now params = Except.ok r) :
    r.owner = pok ∧ r.product_suffix = sfx := by
  by_cases hc : params.username.contains '@' <;> simp at hc <;>
    simp [register_alias_handler, hc] at h
  subst h
  exact ⟨rfl, rfl⟩

/-- Witness for C10: the record registered for `alice` under signer 7 and
product suffix `s` carries owner 7 and suffix `s`, even though the
caller-supplied public key is a different value. -/
theorem register_alias_owner_fields_witness :
    aliasAlice.owner = 7 ∧ aliasAlice.product_suffix = ['s'] :=
  register_alias_owner_fields 7 ['s'] 42 paramsAlice aliasAlice rfl
/-- The record produced by adding `{2, "0xBB"}` to `aliasOne` with the
correct witness `[{1, "0xAA"}]` (the spec's end-to-end scenario 2). -/
def aliasTwo : AliasAccount :=
  { aliasOne with
    chain_mappings_root := Hash32.node (hash_chain_mapping cmA) (hash_chain_mapping cmB)
    chain_mapping_count := 2 }

/-- C2: every `add_chain_mapping` call in which the root recomputed from the
caller-supplied witness mappings differs from the stored
`chain_mappings_root` fails with the `InvalidDerivedAccount`-class error
before any mutation: root and count are unchanged. -/
theorem add_chain_mapping_root_mismatch (acct : AliasAccount)
    (w : List ChainMapping) (n : ChainMapping)
    (h : compute_merkle_root (w.map hash_chain_mapping) ≠ acct.chain_mappings_root) :
    add_chain_mapping acct w n = Except.error EchoIDError.InvalidDerivedAccount ∧
    add_result acct w n = acct := by
  have h1 : add_chain_mapping acct w n =
      Except.error EchoIDError.InvalidDerivedAccount := by
    simp [add_chain_mapping, h]
  exact ⟨h1, by simp [add_result, h1]⟩

/-- Witness for C2: a tampered witness set (`[cmB]` against a root committing
to `cmA`) is rejected with `InvalidDerivedAccount` and the record is
unchanged. -/
theorem add_chain_mapping_root_mismatch_witness :
    add_chain_mapping aliasOne [cmB] cmC =
      Except.error EchoIDError.InvalidDerivedAccount ∧
    add_result aliasOne [cmB] cmC = aliasOne :=
  add_chain_mapping_root_mismatch aliasOne [cmB] cmC (by decide)

/-- Counterexample to C3: an `add_chain_mapping` call at
`chain_mapping_count = MAX_CHAIN_MAPPINGS` whose witness does not match the
stored root fails with `InvalidDerivedAccount` — the witness-root check runs
first — not with the capacity error the claim requires for every such call. -/
theorem add_chain_mapping_capacity_cex :
    aliasMax.chain_mapping_count = MAX_CHAIN_MAPPINGS ∧
    add_chain_mapping aliasMax [cmB] cmC =
      Except.error EchoIDError.InvalidDerivedAccount ∧
    EchoIDError.InvalidDerivedAccount ≠ EchoIDError.MaxChainMappingsReached :=
  ⟨rfl, rfl, by decide⟩

/-- C3 as amended: an `add_chain_mapping` call at `chain_mapping_count =
MAX_CHAIN_MAPPINGS` whose witness matches the stored root and whose new
`chain_id` is not among the witness mappings fails with
`MaxChainMappingsReached`; every call at `count ≥ MAX_CHAIN_MAPPINGS` fails,
leaving root and count unchanged; and a successful call only happens below
capacity, so `chain_mapping_count` never exceeds `MAX_CHAIN_MAPPINGS`. -/
theorem add_chain_mapping_capacity :
    (∀ (acct : AliasAccount) (w : List ChainMapping) (n : ChainMapping),
      compute_merkle_root (w.map hash_chain_mapping) = acct.chain_mappings_root →
      (w.any fun m => m.chain_id == n.chain_id) = false →
      acct.chain_mapping_count = MAX_CHAIN_MAPPINGS →
      add_chain_mapping acct w n = Except.error EchoIDError.MaxChainMappingsReached ∧
      add_result acct w n = acct) ∧
    (∀ (acct : AliasAccount) (w : List ChainMapping) (n : ChainMapping),
      MAX_CHAIN_MAPPINGS ≤ acct.chain_mapping_count → add_result acct w n = acct) ∧
    ∀ (acct : AliasAccount) (w : List ChainMapping) (n : ChainMapping)
      (r : AliasAccount), add_chain_mapping acct w n = Except.ok r →
      acct.chain_mapping_count < MAX_CHAIN_MAPPINGS ∧
      r.chain_mapping_count = acct.chain_mapping_count + 1 ∧
      r.chain_mapping_count ≤ MAX_CHAIN_MAPPINGS := by
  refine ⟨?_, ?_, ?_⟩
  · intro acct w n hroot hdup hcount
    have hlt : ¬ acct.chain_mapping_count < MAX_CHAIN_MAPPINGS := by omega
    have h1 : add_chain_mapping acct w n =
        Except.error EchoIDError.MaxChainMappingsReached := by
      simp [add_chain_mapping, hroot, hdup, hlt]
    exact ⟨h1, by simp [add_result, h1]⟩
  · intro acct w n hcount
    have hlt : ¬ acct.chain_mapping_count < MAX_CHAIN_MAPPINGS := by omega
    by_cases hroot : compute_merkle_root (w.map hash_chain_mapping) =
        acct.chain_mappings_root <;>
      by_cases hdup : (w.any fun m => m.chain_id == n.chain_id) = true <;>
      simp [add_result, add_chain_mapping, hroot, hdup, hlt]
  · intro acct w n r h
    by_cases hroot : compute_merkle_root (w.map hash_chain_mapping) =
        acct.chain_mappings_root <;>
      by_cases hdup : (w.any fun m => m.chain_id == n.chain_id) = true <;>
      by_cases hlt : acct.chain_mapping_count < MAX_CHAIN_MAPPINGS <;>
      simp [add_chain_mapping, hroot, hdup, hlt] at h
    subst h
    refine ⟨hlt, rfl, ?_⟩
    show acct.chain_mapping_count + 1 ≤ MAX_CHAIN_MAPPINGS
    omega

/-- Witness for amended C3: at full capacity with an honest witness and a
fresh chain id the call fails with `MaxChainMappingsReached` and changes
nothing; any call at capacity leaves the record unchanged; and the
successful add of `cmB` to `aliasOne` stays within the capacity bound. -/
theorem add_chain_mapping_capacity_witness :
    (add_chain_mapping aliasMax [cmA] cmB =
        Except.error EchoIDError.MaxChainMappingsReached ∧
      add_result aliasMax [cmA] cmB = aliasMax) ∧
    add_result aliasMax [cmB] cmC = aliasMax ∧
    (aliasOne.chain_mapping_count < MAX_CHAIN_MAPPINGS ∧
      aliasTwo.chain_mapping_count = aliasOne.chain_mapping_count + 1 ∧
      aliasTwo.chain_mapping_count ≤ MAX_CHAIN_MAPPINGS) :=
  ⟨add_chain_mapping_capacity.1 aliasMax [cmA] cmB rfl rfl rfl,
    add_chain_mapping_capacity.2.1 aliasMax [cmB] cmC (by decide),
    add_chain_mapping_capacity.2.2 aliasOne [cmA] cmB aliasTwo rfl⟩

/-- Counterexample to C4: an `add_chain_mapping` call whose new `chain_id`
already occurs among the witness mappings but whose witness does not match
the stored root fails with `InvalidDerivedAccount` — the witness-root check
runs first — not with the `ChainIDAlreadyExists` error the claim requires
for every such call. -/
theorem add_chain_mapping_duplicate_cex :
    ([cmB].any fun m => m.chain_id == (⟨2, [9], none⟩ : ChainMapping).chain_id) = true ∧
    add_chain_mapping aliasOne [cmB] ⟨2, [9], none⟩ =
      Except.error EchoIDError.InvalidDerivedAccount ∧
    EchoIDError.InvalidDerivedAccount ≠ EchoIDError.ChainIDAlreadyExists :=
  ⟨rfl, rfl, by decide⟩

/-- C4 as amended: every `add_chain_mapping` call whose witness matches the
stored root and whose new mapping's `chain_id` already occurs among the
witness mappings fails with `ChainIDAlreadyExists`, leaving root and count
unchanged. -/
theorem add_chain_mapping_duplicate (acct : AliasAccount)
    (w : List ChainMapping) (n : ChainMapping)
    (hroot : compute_merkle_root (w.map hash_chain_mapping) = acct.chain_mappings_root)
    (hdup : (w.any fun m => m.chain_id == n.chain_id) = true) :
    add_chain_mapping acct w n = Except.error EchoIDError.ChainIDAlreadyExists ∧
    add_result acct w n = acct := by
  have h1 : add_chain_mapping acct w n =
      Except.error EchoIDError.ChainIDAlreadyExists := by
    simp [add_chain_mapping, hroot, hdup]
  exact ⟨h1, by simp [add_result, h1]⟩

/-- Witness for amended C4: adding `{1, "0xCC"}` (duplicate chain id 1) with
the honest witness `[{1, "0xAA"}]` fails with `ChainIDAlreadyExists` and
changes nothing (the spec's end-to-end scenario 3). -/
theorem add_chain_mapping_duplicate_witness :
    add_chain_mapping aliasOne [cmA] cmDup =
      Except.error EchoIDError.ChainIDAlreadyExists ∧
    add_result aliasOne [cmA] cmDup = aliasOne :=
  add_chain_mapping_duplicate aliasOne [cmA] cmDup rfl rfl
/-- Counterexample to C8: the `verify_alias_ownership` entrypoint returns
`Result<()>` (`lib.rs` line 42), so a well-formed proof that fails
cryptographic verification surfaces as an error result — here a concrete
well-formed (correctly length-prefixed) proof whose verification fails yields
`Err(InvalidSigner)`, not the non-exceptional boolean `false` the claim
states (the result type has no boolean values at all). -/
theorem verify_ownership_failure_modes_cex :
    verify_ownership_ix (fun _ _ => false) [0] (List.replicate 32 0) =
      Except.error EchoIDError.InvalidSigner ∧
    verify_ownership_ix (fun _ _ => false) [0] (List.replicate 32 0) ≠
      Except.ok () :=
  ⟨rfl, by simp [verify_ownership_ix, deserialize_proof]⟩

/-- C8 as amended: `verify_alias_ownership` distinguishes its two failure
modes as error results: a byte string that does not deserialize into a
structured proof fails with the `InvalidInstruction`-class error, while a
well-formed proof that fails cryptographic verification makes the operation
fail with an `InvalidSigner`-class error — it never succeeds for a failing
proof, and failure is an error result (the entrypoint returns `Result<()>`),
not a boolean `false`. -/
theorem verify_ownership_failure_modes
    (verify : SerializableProof → Bytes → Bool) (bytes : List Nat) (pk : Bytes) :
    (deserialize_proof bytes = none →
      verify_ownership_ix verify bytes pk =
        Except.error EchoIDError.InvalidInstruction) ∧
    ∀ p, deserialize_proof bytes = some p → verify p pk = false →
      verify_ownership_ix verify bytes pk =
        Except.error EchoIDError.InvalidSigner := by
  constructor
  · intro h
    simp [verify_ownership_ix, h]
  · intro p hp hv
    simp [verify_ownership_ix, hp, hv]

/-- Witness for amended C8: the malformed byte string `[5]` (declared length
5, empty payload) fails with `InvalidInstruction`; the well-formed byte
string `[1, 9]` under a failing verifier yields `InvalidSigner`. -/
theorem verify_ownership_failure_modes_witness :
    verify_ownership_ix (fun _ _ => true) [5] (List.replicate 32 0) =
      Except.error EchoIDError.InvalidInstruction ∧
    verify_ownership_ix (fun _ _ => false) [1, 9] (List.replicate 32 0) =
      Except.error EchoIDError.InvalidSigner :=
  ⟨(verify_ownership_failure_modes (fun _ _ => true) [5] (List.replicate 32 0)).1 rfl,
    (verify_ownership_failure_modes (fun _ _ => false) [1, 9]
      (List.replicate 32 0)).2 ⟨[9]⟩ rfl rfl⟩

/-- A pre-state whose stored root commits to the four leaves
`[cmA, cmB, cmC, cmC]` with `chain_mapping_count = 4`: it satisfies the
root/count consistency invariant. -/
def a9 : AliasAccount :=
  { aliasOne with
    chain_mappings_root :=
      Hash32.node (Hash32.node (hash_chain_mapping cmA) (hash_chain_mapping cmB))
        (Hash32.node (hash_chain_mapping cmC) (hash_chain_mapping cmC))
    chain_mapping_count := 4 }

/-- The state `add_chain_mapping` produces from `a9` with the three-element
witness `[cmA, cmB, cmC]` (which recomputes to the same root as the
four-element sequence, by the duplicate-last-node policy) and new mapping
`cmD`: its root is a four-leaf root, but its count is 5. -/
def a9post : AliasAccount :=
  { a9 with
    chain_mappings_root :=
      Hash32.node (Hash32.node (hash_chain_mapping cmA) (hash_chain_mapping cmB))
        (Hash32.node (hash_chain_mapping cmC) (hash_chain_mapping cmD))
    chain_mapping_count := 5 }

/-- Counterexample to C9: because the odd-level policy duplicates the last
node, the witness sets `[cmA, cmB, cmC]` and `[cmA, cmB, cmC, cmC]`
recompute to the same root, so `add_chain_mapping` does not bind the witness
length to the stored count. From the invariant-satisfying state `a9` (root =
root of 4 leaves, count = 4), the call with the 3-element witness succeeds
and yields count 5 with a 4-leaf root — a root that is not
`compute_merkle_root` of any 5-element leaf sequence. -/
theorem root_count_invariant_cex :
    (∃ leaves : List Hash32, leaves.length = a9.chain_mapping_count ∧
      compute_merkle_root leaves = a9.chain_mappings_root) ∧
    add_chain_mapping a9 [cmA, cmB, cmC] cmD = Except.ok a9post ∧
    ¬∃ leaves : List Hash32, leaves.length = a9post.chain_mapping_count ∧
      compute_merkle_root leaves = a9post.chain_mappings_root := by
  refine ⟨⟨[cmA, cmB, cmC, cmC].map hash_chain_mapping, rfl, rfl⟩, rfl, ?_⟩
  rintro ⟨l, hlen, hroot⟩
  rcases l with _ | ⟨x1, _ | ⟨x2, _ | ⟨x3, _ | ⟨x4, _ | ⟨x5, _ | ⟨x6, t⟩⟩⟩⟩⟩⟩ <;>
    simp [a9post, a9, aliasOne] at hlen
  simp [compute_merkle_root, merkle_fold, hash_pairs, a9post, a9, aliasOne,
    hash_chain_mapping] at hroot

/-- C9 as amended: `chain_mappings_root` and `chain_mapping_count` are
updated together or neither — a failing `add_chain_mapping` leaves the
record exactly as it was, a successful one stores the root recomputed over
the verified witness leaves plus the new leaf together with the incremented
count, and `register_alias` either fails or creates the record with the
single-leaf root and count 1 in one step. (The stronger reading refuted by
the counterexample — that the stored root is always a root of a sequence of
exactly `chain_mapping_count` leaves — fails because the duplicate-last
policy does not bind the witness length to the stored count.) -/
theorem root_count_atomic_update :
    (∀ (acct : AliasAccount) (w : List ChainMapping) (n : ChainMapping),
      add_result acct w n = acct ∨
      (add_chain_mapping acct w n = Except.ok (add_result acct w n) ∧
        (add_result acct w n).chain_mappings_root =
          compute_merkle_root (w.map hash_chain_mapping ++ [hash_chain_mapping n]) ∧
        (add_result acct w n).chain_mapping_count = acct.chain_mapping_count + 1 ∧
        compute_merkle_root (w.map hash_chain_mapping) = acct.chain_mappings_root)) ∧
    ∀ (pok : Pubkey) (sfx : List Char) (now : Int) (params : RegisterAliasParams),
      register_alias_handler pok sfx now params =
        Except.error EchoIDError.InvalidUsername ∨
      register_alias_handler pok sfx now params =
        Except.ok
          { owner := pok
            username := params.username
            product_suffix := sfx
            public_key := params.public_key
            chain_mappings_root :=
              compute_merkle_root [hash_chain_mapping params.initial_chain_mapping]
            chain_mapping_count := 1
            reputation := 10
            reputation_updated_at := now } := by
  constructor
  · intro acct w n
    by_cases hroot : compute_merkle_root (w.map hash_chain_mapping) =
        acct.chain_mappings_root
    · by_cases hdup : (w.any fun m => m.chain_id == n.chain_id) = true
      · left
        simp [add_result, add_chain_mapping, hroot, hdup]
      · by_cases hlt : acct.chain_mapping_count < MAX_CHAIN_MAPPINGS
        · right
          have hok : add_chain_mapping acct w n =
              Except.ok
                { acct with
                  chain_mappings_root :=
                    compute_merkle_root
                      (w.map hash_chain_mapping ++ [hash_chain_mapping n])
                  chain_mapping_count := acct.chain_mapping_count + 1 } := by
            simp [add_chain_mapping, hroot, hdup, hlt]
          refine ⟨?_, ?_, ?_, hroot⟩ <;> simp [add_result, hok]
        · left
          simp [add_result, add_chain_mapping, hroot, hdup, hlt]
    · left
      simp [add_result, add_chain_mapping, hroot]
  · intro pok sfx now params
    by_cases hc : params.username.contains '@' <;> simp at hc
    · left
      simp [register_alias_handler, hc]
    · right
      simp [register_alias_handler, hc]
